import Mathlib

/-!
Shallow embedding of the `tradio` playback engine (crate `gadavy/tradio`),
covering the parts of the code the specification's claims talk about:

* `src/player/mod.rs` — the `Device` record and its identifier-based equality;
* `src/player/rodio/mod.rs` — the `Rodio` player: `play`, `stop`, the periodic
  cancellation closure, `volume`/`set_volume`, `devices`, `use_device`;
* `src/player/rodio/source.rs` — the `Symphonia` decoder source's
  `Iterator::next`;
* `src/models/station.rs` — the `Tags` conversions (comma-joined string ↔
  list of trimmed strings) used by the sqlite storage round-trip.

Modelling conventions: machine integers are `Int`/`Nat`; the sink's `f32`
volume is modelled as an exact rational (`ℚ`) — for the only operations
performed on it (`i8 → f32` conversion, division and multiplication by the
exact constant `100.0`, and `round`) the accumulated f32 rounding error is
below `100 * 2 ^ (-23) < 1/2`, so rounding to the nearest integer agrees with
the exact rational computation; the host audio API (cpal) is a parameter
(`Host`) supplying device enumerations, the default-device query and the
failure behaviour of stream opening / `play_raw`; blocking primitives
(`Sink::sleep_until_end`) are modelled by their postcondition (the sink queue
is empty); panics (out-of-bounds slice indexing) are modelled as the
`Except.error` branch of `Except Unit`.
-/

namespace Tradio

/-! ### Data model: `Device` (src/player/mod.rs) -/

/-- `Device` from `src/player/mod.rs`: identifier plus the `is_active` and
`is_default` flags. -/
structure Device where
  id : String
  is_active : Bool
  is_default : Bool
deriving DecidableEq, Repr

/-- `impl PartialEq for Device` (src/player/mod.rs lines 62–66): equality
compares only the `id` field. -/
def Device.eqv (a b : Device) : Bool :=
  a.id == b.id

/-! ### Sink state and volume (src/player/rodio/mod.rs) -/

/-- The observable state of the rodio `Sink` used by the player: the queue of
appended sources (identified by a tag), the volume (`f32`, modelled as `ℚ`)
and the paused flag. -/
structure SinkState where
  queue : List Nat
  volume : ℚ
  paused : Bool
deriving DecidableEq, Repr

/-- Rust `i8::clamp(0, 100)` (the `core` implementation of `Ord::clamp`):
`if self < min { min } else if self > max { max } else { self }`. -/
def clampInt (v lo hi : Int) : Int :=
  if v < lo then lo else if v > hi then hi else v

/-- `Rodio::set_volume` (src/player/rodio/mod.rs lines 134–137):
`self.sink.set_volume(f32::from(volume.clamp(0, 100)) / 100.0)`. -/
def set_volume (s : SinkState) (volume : Int) : SinkState :=
  { s with volume := ((clampInt volume 0 100 : Int) : ℚ) / 100 }

/-- `Rodio::volume` (src/player/rodio/mod.rs lines 130–132):
`(self.sink.volume() * 100.0).round() as i8`. -/
def volume (s : SinkState) : Int :=
  round (s.volume * 100)

/-! ### Controls and the periodic cancellation closure
(src/player/rodio/mod.rs lines 80–116) -/

/-- `Controls` (src/player/rodio/mod.rs lines 17–20): the single shared
cancellation flag. -/
structure Controls where
  stop : Bool
deriving DecidableEq, Repr

/-- A `rodio::source::Stoppable`-wrapped source: the remaining sample
sequence plus the stopped flag; once stopped it yields no further samples. -/
structure StoppableSource where
  samples : List Int
  stopped : Bool
deriving DecidableEq, Repr

/-- `Stoppable::stop`: marks the wrapped source as stopped. -/
def StoppableSource.setStopped (s : StoppableSource) : StoppableSource :=
  { s with stopped := true }

/-- Pulling one sample from a `Stoppable` source: `none` (end of stream) once
the source has been stopped, otherwise the head of the remaining samples. -/
def StoppableSource.next (s : StoppableSource) : Option (Int × StoppableSource) :=
  if s.stopped then none
  else
    match s.samples with
    | [] => none
    | v :: rest => some (v, { s with samples := rest })

/-- The periodic-access closure installed by `Rodio::play`
(src/player/rodio/mod.rs lines 86–91): if the shared stop flag is set, stop
the wrapped source and clear the flag; otherwise do nothing. -/
def access (controls : Controls) (src : StoppableSource) : Controls × StoppableSource :=
  if controls.stop then ({ stop := false }, src.setStopped)
  else (controls, src)

/-- `Rodio::stop` (src/player/rodio/mod.rs lines 114–116): raise the shared
stop flag. -/
def Controls.requestStop (c : Controls) : Controls :=
  { c with stop := true }

/-! ### The `Rodio` player state and `play` (src/player/rodio/mod.rs) -/

/-- A rodio `OutputStream` bound to one device, together with the source
(identified by a tag) that `play_raw` has attached to its mixer, if any. -/
structure StreamHandle where
  deviceName : String
  boundSource : Option Nat
deriving DecidableEq, Repr

/-- `ActiveOutput` (src/player/rodio/mod.rs lines 22–26): the currently
bound device and the open output stream. -/
structure ActiveOutput where
  device : Option Device
  stream : Option StreamHandle
deriving DecidableEq, Repr

/-- The state of a `Rodio` player (src/player/rodio/mod.rs lines 41–47):
the sink, the shared sources-queue output `queue_rx` (identified by a tag —
`SharedSourcesQueue` is an `Arc`, so its identity is what matters), the
shared `Controls` flag and the `ActiveOutput` behind its mutex. -/
structure Rodio where
  sink : SinkState
  queue_rx : Nat
  controls : Controls
  active_out : ActiveOutput
deriving DecidableEq, Repr

/-- `Sink::sleep_until_end`, by its postcondition: it blocks until the sink
has drained every queued source, so afterwards the sink queue is empty. -/
def sleepUntilEnd (st : Rodio) : Rodio :=
  { st with sink := { st.sink with queue := [] } }

/-- The drain loop of `Rodio::play` (src/player/rodio/mod.rs lines 97–101):
`while self.sink.len() > 0 { self.controls.stop.store(true); self.sink.sleep_until_end(); }`. -/
def drainLoop (st : Rodio) : Rodio :=
  if st.sink.queue.length > 0 then
    drainLoop (sleepUntilEnd { st with controls := { stop := true } })
  else st
termination_by st.sink.queue.length
decreasing_by simpa [sleepUntilEnd] using Nat.pos_of_ne_zero (by omega)

/-- `Rodio::play` (src/player/rodio/mod.rs lines 81–108) after the decoder
source has been constructed successfully: drain the existing queue, clear
the stop flag, then append the new source `src` to the sink. -/
def play (st : Rodio) (src : Nat) : Rodio :=
  let st1 := drainLoop st
  let st2 := { st1 with controls := { stop := false } }
  { st2 with sink := { st2.sink with queue := st2.sink.queue ++ [src] } }

/-! ### Host audio API model and `use_device` / `devices`
(src/player/rodio/mod.rs lines 139–194) -/

/-- The host audio API (cpal) as the player observes it in one call:
`allDevices` is the enumeration `cpal::default_host().devices()` used by
`use_device`; `outputDevices` is `host.output_devices()` used by `devices`;
`defaultName` is the name of `host.default_output_device()`;
`openFails n` says whether `OutputStream::try_from_device` fails on the
device named `n`, and `playRawFails n` whether `handler.play_raw` fails on
the stream opened from it. -/
structure Host where
  allDevices : List String
  outputDevices : List String
  defaultName : Option String
  openFails : String → Bool
  playRawFails : String → Bool

/-- `Rodio::devices` (src/player/rodio/mod.rs lines 139–165): one `Device`
per enumerated output device; `is_active` iff its name equals the bound
device's id, `is_default` iff its name equals the host default's name. -/
def devices (host : Host) (st : Rodio) : List Device :=
  host.outputDevices.map fun id =>
    { id := id
      is_active := st.active_out.device.map Device.id == some id
      is_default :=
        match host.defaultName with
        | some dn => id == dn
        | none => false }

/-- `Rodio::use_device` (src/player/rodio/mod.rs lines 167–194). Mutation of
`self` happens in place, so the function returns the (possibly updated)
state together with the `Result`: the early-return when the argument equals
the active device; the resolution loop over a fresh enumeration (first
matching name wins); `OutputStream::try_from_device` (which can fail);
the assignment of the new stream and device into `active_out`; and finally
`handler.play_raw(self.queue_rx.clone())` (which can fail, after the
assignments have already happened). -/
def use_device (host : Host) (st : Rodio) (d : Device) : Rodio × Except String Unit :=
  if (st.active_out.device.map fun cur => Device.eqv d cur).getD false then
    (st, Except.ok ())
  else
    match host.allDevices.find? fun n => n == d.id with
    | none => (st, Except.error "device not found")
    | some name =>
      if host.openFails name then (st, Except.error "failed to open output stream")
      else
        let stream : StreamHandle := { deviceName := name, boundSource := none }
        let st1 := { st with active_out := { device := some d, stream := some stream } }
        if host.playRawFails name then (st1, Except.error "play_raw failed")
        else
          ({ st with
              active_out :=
                { device := some d
                  stream := some { stream with boundSource := some st.queue_rx } } },
            Except.ok ())

/-- `Rodio::active_device` (src/player/rodio/mod.rs lines 196–198). -/
def active_device (st : Rodio) : Option Device :=
  st.active_out.device

/-! ### Concrete sample values used to evaluate the theorems -/

/-- A host exposing one device `"A"` on which everything succeeds. -/
def hostOk : Host :=
  { allDevices := ["A"], outputDevices := ["A"], defaultName := some "A"
    openFails := fun _ => false, playRawFails := fun _ => false }

/-- A host exposing one device `"A"` whose stream opens but on which
`play_raw` fails. -/
def hostPlayRawFail : Host :=
  { allDevices := ["A"], outputDevices := ["A"], defaultName := none
    openFails := fun _ => false, playRawFails := fun _ => true }

/-- A host exposing no devices at all. -/
def hostEmpty : Host :=
  { allDevices := [], outputDevices := [], defaultName := none
    openFails := fun _ => false, playRawFails := fun _ => false }

/-- A host exposing devices `"A"` and `"B"` with `"B"` as the default. -/
def hostAB : Host :=
  { allDevices := ["A", "B"], outputDevices := ["A", "B"], defaultName := some "B"
    openFails := fun _ => false, playRawFails := fun _ => false }

/-- The `Device` record for `"A"` as `devices` would report it when it is
neither active nor the default. -/
def devA : Device :=
  { id := "A", is_active := false, is_default := false }

/-- A freshly built idle player: empty sink queue, volume `1.0` (rodio's
default), not paused, stop flag clear, no device bound. -/
def stIdle : Rodio :=
  { sink := { queue := [], volume := 1, paused := false }
    queue_rx := 7
    controls := { stop := false }
    active_out := { device := none, stream := none } }

/-- A player mid-playback on device `"A"`: one source queued, stream open
and bound to the shared queue. -/
def stOnA : Rodio :=
  { sink := { queue := [3], volume := 1, paused := false }
    queue_rx := 7
    controls := { stop := false }
    active_out :=
      { device := some devA
        stream := some { deviceName := "A", boundSource := some 7 } } }

/-! ### The `Symphonia` decoder source (src/player/rodio/source.rs) -/

/-- One call to `reader.next_packet()` followed (on success) by
`decoder.decode(&packet)`, as the decoder source observes it: the fetch can
fail (`fetchErr`, including end of stream), the decode can fail
(`decodeErr`), or a buffer of interleaved samples is produced. -/
inductive PacketPull where
  | fetchErr
  | decodeErr
  | decoded (samples : List Int)
deriving DecidableEq, Repr

/-- `Symphonia` (src/player/rodio/source.rs lines 15–22): the remaining
stream of packet pulls (standing for the `FormatReader`/`Decoder` pair), the
read offset into the current decoded buffer, and that buffer's samples
(`SampleBuffer<i16>`, samples as `Int`). -/
structure Symphonia where
  packets : List PacketPull
  offset : Nat
  buffer : List Int
deriving DecidableEq, Repr

/-- The tail of `Symphonia::next`:
`let sample = self.buffer.samples()[self.offset]; self.offset += 1;` —
Rust slice indexing panics when the index is out of bounds, modelled as
`none`. -/
def Symphonia.readSample (s : Symphonia) : Option (Int × Symphonia) :=
  (s.buffer.get? s.offset).map fun v => (v, { s with offset := s.offset + 1 })

/-- `impl Iterator for Symphonia` (src/player/rodio/source.rs lines
93–120). `Except.error ()` models a panic (out-of-bounds indexing);
`Except.ok none` is the iterator's `None` (end of stream); on the refill
path the buffer is replaced by the newly decoded samples and the offset
reset to `0` before the common indexing step runs. -/
def Symphonia.next (s : Symphonia) : Except Unit (Option (Int × Symphonia)) :=
  if s.offset = s.buffer.length then
    match s.packets with
    | [] => Except.ok none
    | PacketPull.fetchErr :: _ => Except.ok none
    | PacketPull.decodeErr :: _ => Except.ok none
    | PacketPull.decoded samples :: rest =>
      match Symphonia.readSample { packets := rest, offset := 0, buffer := samples } with
      | none => Except.error ()
      | some p => Except.ok (some p)
  else
    match s.readSample with
    | none => Except.error ()
    | some p => Except.ok (some p)

/-- A packet pull is well formed when a successful decode carries at least
one sample (what the indexing in `Symphonia::next` relies on). -/
def PacketPull.wellFormed : PacketPull → Bool
  | PacketPull.decoded samples => !samples.isEmpty
  | _ => true

/-! ### `Tags` (src/models/station.rs lines 33–49) -/

/-- Rust `char::is_whitespace`: the Unicode `White_Space` property, which is
the finite set U+0009–U+000D, U+0020, U+0085, U+00A0, U+1680,
U+2000–U+200A, U+2028, U+2029, U+202F, U+205F, U+3000. -/
def isWhitespaceChar (c : Char) : Bool :=
  c == '\t' || c == '\n' || c == '\x0b' || c == '\x0c' || c == '\r' || c == ' '
    || c.val == 0x85 || c.val == 0xA0 || c.val == 0x1680
    || decide (0x2000 ≤ c.val ∧ c.val ≤ 0x200A)
    || c.val == 0x2028 || c.val == 0x2029 || c.val == 0x202F
    || c.val == 0x205F || c.val == 0x3000

/-- Rust `str::trim`: drop leading and trailing whitespace. Strings are
modelled as `List Char`. -/
def trimChars (s : List Char) : List Char :=
  ((s.dropWhile isWhitespaceChar).reverse.dropWhile isWhitespaceChar).reverse

/-- Rust `str::split(',')`: split on every comma, keeping empty parts; the
empty string splits into one empty part. -/
def splitComma : List Char → List (List Char)
  | [] => [[]]
  | c :: rest =>
    if c = ',' then [] :: splitComma rest
    else
      match splitComma rest with
      | [] => [[c]]
      | p :: ps => (c :: p) :: ps

/-- Rust `[String]::join(",")` as used by `Tags::to_string`. -/
def joinComma : List (List Char) → List Char
  | [] => []
  | [t] => t
  | t :: ts => t ++ ',' :: joinComma ts

/-- `impl ToString for Tags` (src/models/station.rs lines 33–37):
`self.join(",")`. -/
def tagsToString (ts : List (List Char)) : List Char :=
  joinComma ts

/-- `impl From<String> for Tags` (src/models/station.rs lines 39–43):
`value.split(',').map(|p| p.trim().to_string()).collect()`. -/
def tagsFromString (s : List Char) : List (List Char) :=
  (splitComma s).map trimChars

end Tradio

namespace Tradio

/-! ### Claim theorems: volume and cancellation -/

/-- C3: for every `i8` input `v`, `set_volume v` followed by `volume` returns
`clamp v 0 100`: `set_volume` clamps `v` to `[0, 100]` and stores it scaled
to the sink's native range (`/ 100.0`), and `volume` recovers exactly the
clamped percentage. -/
theorem volume_set_volume_roundtrip (s : SinkState) (v : Int) :
    volume (set_volume s v) = clampInt v 0 100 := by
  unfold volume set_volume
  simp only
  rw [div_mul_cancel₀]
  · exact round_intCast (clampInt v 0 100)
  · norm_num

/-- The drain loop of `play` always terminates with an empty sink queue:
either the queue was already empty, or one round of raising the stop flag
and sleeping until the sink ends empties it. -/
theorem drainLoop_empties_queue (st : Rodio) : (drainLoop st).sink.queue = [] := by
  rw [drainLoop]
  by_cases h : st.sink.queue.length > 0
  · rw [if_pos h, drainLoop]
    simp [sleepUntilEnd]
  · rw [if_neg h]
    exact List.length_eq_zero.mp (by omega)

/-- C1: `play` first drains the existing queue (stop flag raised, blocking
until the sink reports length zero) and clears the stop flag before
appending the new source, so afterwards the sink queue holds exactly the new
source — never sources from two `play` calls at once. -/
theorem play_drains_then_appends (st : Rodio) (src : Nat) :
    (drainLoop st).sink.queue = [] ∧
    (play st src).sink.queue = [src] ∧
    (play st src).controls.stop = false := by
  refine ⟨drainLoop_empties_queue st, ?_, ?_⟩
  · unfold play
    simp [drainLoop_empties_queue st]
  · unfold play
    simp

/-- C7: one run of the periodic cancellation check: when the stop flag is
observed set, the check stops the wrapped source and resets the flag to
`false` in the same check; when the flag is observed unset, it leaves both
the source and the flag unchanged. A stopped source yields no further
samples (as if end-of-stream). -/
theorem access_spec (c : Controls) (s : StoppableSource) :
    access c s =
      ((if c.stop then { stop := false } else c),
        (if c.stop then { s with stopped := true } else s)) ∧
    (access { stop := true } s).2.next = none := by
  constructor
  · cases hc : c.stop <;> simp [access, hc, StoppableSource.setStopped]
  · simp [access, StoppableSource.setStopped, StoppableSource.next]

/-! ### Claim theorems: `use_device` and `devices` -/

/-- C5: `use_device d` when `d` has the same identifier as the currently
active device (equality is identifier-based, ignoring the flags) returns
success immediately and leaves the whole player state — in particular the
`ActiveOutput`'s device and stream fields — untouched. -/
theorem use_device_idempotent (host : Host) (st : Rodio) (d cur : Device)
    (hcur : st.active_out.device = some cur) (hid : d.id = cur.id) :
    use_device host st d = (st, Except.ok ()) := by
  unfold use_device
  rw [hcur]
  simp [Device.eqv, hid]

/-- Witness for `use_device_idempotent`: switching to device `"A"` with
different flag values while `"A"` is already active changes nothing. -/
theorem use_device_idempotent_witness :
    use_device hostOk stOnA { id := "A", is_active := true, is_default := true } =
      (stOnA, Except.ok ()) :=
  use_device_idempotent hostOk stOnA _ devA rfl rfl

/-- C2: a successful `use_device` leaves the sink (queue, volume, paused
flag), the shared `queue_rx` and the controls unmodified, and the stream it
leaves in place is either the one that was already bound (idempotent case)
or a newly opened stream bound to the very same shared queue instance. -/
theorem use_device_success_preserves_queue (host : Host) (st : Rodio) (d : Device)
    (hok : (use_device host st d).2 = Except.ok ()) :
    (use_device host st d).1.sink = st.sink ∧
    (use_device host st d).1.queue_rx = st.queue_rx ∧
    (use_device host st d).1.controls = st.controls ∧
    ∀ s, (use_device host st d).1.active_out.stream = some s →
      st.active_out.stream = some s ∨ s.boundSource = some st.queue_rx := by
  cases hidem : (st.active_out.device.map fun cur => Device.eqv d cur).getD false with
  | true =>
    refine ⟨by simp [use_device, hidem], by simp [use_device, hidem],
      by simp [use_device, hidem], fun s hs => Or.inl ?_⟩
    simpa [use_device, hidem] using hs
  | false =>
    cases hfind : host.allDevices.find? fun n => n == d.id with
    | none =>
      exfalso
      simp [use_device, hidem, hfind] at hok
    | some name =>
      cases hopen : host.openFails name with
      | true =>
        exfalso
        simp [use_device, hidem, hfind, hopen] at hok
      | false =>
        cases hplay : host.playRawFails name with
        | true =>
          exfalso
          simp [use_device, hidem, hfind, hopen, hplay] at hok
        | false =>
          refine ⟨by simp [use_device, hidem, hfind, hopen, hplay],
            by simp [use_device, hidem, hfind, hopen, hplay],
            by simp [use_device, hidem, hfind, hopen, hplay],
            fun s hs => Or.inr ?_⟩
          simp only [use_device, hidem, hfind, hopen, hplay] at hs
          simp at hs
          rw [← hs]

/-- Witness for `use_device_success_preserves_queue`: binding the idle
player to device `"A"` succeeds, keeps the sink and shared queue, and binds
the new stream to queue tag `7`. -/
theorem use_device_success_preserves_queue_witness :
    (use_device hostOk stIdle devA).1.sink = stIdle.sink ∧
    (use_device hostOk stIdle devA).1.queue_rx = stIdle.queue_rx ∧
    (use_device hostOk stIdle devA).1.controls = stIdle.controls ∧
    ∀ s, (use_device hostOk stIdle devA).1.active_out.stream = some s →
      stIdle.active_out.stream = some s ∨ s.boundSource = some stIdle.queue_rx :=
  use_device_success_preserves_queue hostOk stIdle devA rfl

/-- C4 counterexample: on a host where the stream opens but `play_raw`
fails, `use_device` returns an error, yet the prior binding is NOT
preserved — `active_device` changes from `none` to the new device, because
the code assigns `active_out.stream`/`active_out.device` before calling
`handler.play_raw(...)?`. -/
theorem use_device_failure_changes_binding_cex :
    (use_device hostPlayRawFail stIdle devA).2 = Except.error "play_raw failed" ∧
    active_device (use_device hostPlayRawFail stIdle devA).1 ≠ active_device stIdle := by
  constructor
  · rfl
  · decide

/-- C4 amended: when `use_device` (in a non-idempotent call) fails because
the identifier matches no device in the fresh enumeration, or because
opening the output stream fails, the call errors and the prior binding is
exactly preserved; but when `play_raw` fails after the stream was opened,
the call errors with the new device and (unbound) stream already installed
in `ActiveOutput`. -/
theorem use_device_error_binding (host : Host) (st : Rodio) (d : Device)
    (hne : (st.active_out.device.map fun cur => Device.eqv d cur).getD false = false) :
    ((host.allDevices.find? fun n => n == d.id) = none →
      use_device host st d = (st, Except.error "device not found")) ∧
    (∀ name, (host.allDevices.find? fun n => n == d.id) = some name →
      host.openFails name = true →
      use_device host st d = (st, Except.error "failed to open output stream")) ∧
    (∀ name, (host.allDevices.find? fun n => n == d.id) = some name →
      host.openFails name = false → host.playRawFails name = true →
      use_device host st d =
        ({ st with
            active_out :=
              { device := some d
                stream := some { deviceName := name, boundSource := none } } },
          Except.error "play_raw failed")) := by
  refine ⟨fun hfind => ?_, fun name hfind hopen => ?_, fun name hfind hopen hplay => ?_⟩
  · simp [use_device, hne, hfind]
  · simp [use_device, hne, hfind, hopen]
  · simp [use_device, hne, hfind, hopen, hplay]

/-- Witness for `use_device_error_binding`: on the host exposing no
devices the idle player's `use_device` fails with "device not found" and
the state is unchanged. -/
theorem use_device_error_binding_witness :
    use_device hostEmpty stIdle devA = (stIdle, Except.error "device not found") :=
  (use_device_error_binding hostEmpty stIdle devA (by decide)).1 (by decide)

/-- C8: when the enumerated output device names are distinct, `devices`
marks exactly one entry `is_default` whenever the host reports a default
device that occurs in the enumeration, and exactly one entry `is_active`
whenever a device is bound (as a successful `use_device` leaves it) and its
identifier occurs in the enumeration. -/
theorem devices_unique_flags (host : Host) (st : Rodio)
    (hnodup : host.outputDevices.Nodup) :
    (∀ dn, host.defaultName = some dn → dn ∈ host.outputDevices →
      ((devices host st).filter fun e => e.is_default).length = 1) ∧
    (∀ d, st.active_out.device = some d → d.id ∈ host.outputDevices →
      ((devices host st).filter fun e => e.is_active).length = 1) := by
  constructor
  · intro dn hdn hmem
    rw [← List.countP_eq_length_filter]
    unfold devices
    rw [List.countP_map, hdn]
    have : ((fun e : Device => e.is_default) ∘ fun id =>
        ({ id := id
           is_active := st.active_out.device.map Device.id == some id
           is_default := id == dn } : Device)) = fun id => id == dn := by
      funext x
      rfl
    rw [this]
    exact List.count_eq_one_of_mem hnodup hmem
  · intro d hd hmem
    rw [← List.countP_eq_length_filter]
    unfold devices
    rw [List.countP_map, hd]
    have : ((fun e : Device => e.is_active) ∘ fun id =>
        ({ id := id
           is_active := (some d).map Device.id == some id
           is_default :=
             match host.defaultName with
             | some dn => id == dn
             | none => false } : Device)) = fun id => id == d.id := by
      funext x
      rcases eq_or_ne d.id x with h | h
      · simp [Device.id, h]
      · simp [Device.id, h, Ne.symm h]
    rw [this]
    exact List.count_eq_one_of_mem hnodup hmem

/-- Witness for `devices_unique_flags`: on the two-device host with default
`"B"` and a player bound to `"A"`, each flag marks exactly one entry. -/
theorem devices_unique_flags_witness :
    ((devices hostAB stOnA).filter fun e => e.is_default).length = 1 ∧
    ((devices hostAB stOnA).filter fun e => e.is_active).length = 1 :=
  ⟨(devices_unique_flags hostAB stOnA (by decide)).1 "B" rfl (by decide),
    (devices_unique_flags hostAB stOnA (by decide)).2 devA rfl (by decide)⟩

/-! ### Claim theorems: the decoder source's `next` -/

/-- C6: one pull on the decoder source either returns the next sample of
the current decoded buffer, or — when the buffer is exhausted — fetches and
decodes the next packet and resumes from its first sample; when the stream
is exhausted, the fetch fails or the decode fails, it returns `None`
(`Except.ok none`) rather than propagating an error. -/
theorem symphonia_next_cases (s : Symphonia) :
    (∀ h : s.offset < s.buffer.length,
      Symphonia.next s =
        Except.ok (some (s.buffer.get ⟨s.offset, h⟩, { s with offset := s.offset + 1 }))) ∧
    (s.offset = s.buffer.length → s.packets = [] → Symphonia.next s = Except.ok none) ∧
    (∀ rest, s.offset = s.buffer.length → s.packets = PacketPull.fetchErr :: rest →
      Symphonia.next s = Except.ok none) ∧
    (∀ rest, s.offset = s.buffer.length → s.packets = PacketPull.decodeErr :: rest →
      Symphonia.next s = Except.ok none) ∧
    (∀ v tl rest, s.offset = s.buffer.length →
      s.packets = PacketPull.decoded (v :: tl) :: rest →
      Symphonia.next s =
        Except.ok (some (v, { packets := rest, offset := 1, buffer := v :: tl }))) := by
  refine ⟨fun h => ?_, fun he hp => ?_, fun rest he hp => ?_, fun rest he hp => ?_,
    fun v tl rest he hp => ?_⟩
  · have hne : s.offset ≠ s.buffer.length := Nat.ne_of_lt h
    simp [Symphonia.next, hne, Symphonia.readSample, List.getElem?_eq_getElem h]
  · simp [Symphonia.next, he, hp]
  · simp [Symphonia.next, he, hp]
  · simp [Symphonia.next, he, hp]
  · simp [Symphonia.next, he, hp, Symphonia.readSample]

/-- Witness for `symphonia_next_cases`: with the buffer exhausted and a
decode failure pending, `next` returns `None` and does not panic or error. -/
theorem symphonia_next_cases_witness :
    Symphonia.next { packets := [PacketPull.decodeErr], offset := 1, buffer := [5] } =
      Except.ok none :=
  (symphonia_next_cases { packets := [PacketPull.decodeErr], offset := 1, buffer := [5] }).2.2.2.1
    [] rfl rfl

/-- C10: when the session invariant holds (the offset never exceeds the
buffer length) and every decoded packet in the remaining stream carries at
least one sample, `Symphonia::next` never reaches the out-of-bounds indexing
panic — it returns `Except.ok`, and the invariant is preserved in the
successor state. A successfully decoded empty packet is exactly what the
well-formedness side condition rules out. -/
theorem symphonia_next_no_panic (s : Symphonia)
    (hoff : s.offset ≤ s.buffer.length)
    (hwf : s.packets.all PacketPull.wellFormed = true) :
    ∃ r, Symphonia.next s = Except.ok r ∧
      ∀ v s2, r = some (v, s2) →
        s2.offset ≤ s2.buffer.length ∧ s2.packets.all PacketPull.wellFormed = true := by
  by_cases he : s.offset = s.buffer.length
  · cases hp : s.packets with
    | nil => exact ⟨none, by simp [Symphonia.next, he, hp], by simp⟩
    | cons head rest =>
      rw [hp, List.all_cons, Bool.and_eq_true] at hwf
      cases head with
      | fetchErr => exact ⟨none, by simp [Symphonia.next, he, hp], by simp⟩
      | decodeErr => exact ⟨none, by simp [Symphonia.next, he, hp], by simp⟩
      | decoded samples =>
        cases samples with
        | nil => simp [PacketPull.wellFormed] at hwf
        | cons v tl =>
          refine ⟨some (v, { packets := rest, offset := 1, buffer := v :: tl }), ?_, ?_⟩
          · simp [Symphonia.next, he, hp, Symphonia.readSample]
          · intro v2 s2 hr
            rw [Option.some_inj, Prod.mk.injEq] at hr
            rw [← hr.2]
            exact ⟨by simp, hwf.2⟩
  · have hlt : s.offset < s.buffer.length := lt_of_le_of_ne hoff he
    refine ⟨some (s.buffer.get ⟨s.offset, hlt⟩, { s with offset := s.offset + 1 }), ?_, ?_⟩
    · simp [Symphonia.next, he, Symphonia.readSample, List.getElem?_eq_getElem hlt]
    · intro v2 s2 hr
      rw [Option.some_inj, Prod.mk.injEq] at hr
      rw [← hr.2]
      exact ⟨hlt, hwf⟩

/-- Witness for `symphonia_next_no_panic`: a session one sample before the
end of its buffer with one well-formed packet pending pulls without
panicking. -/
theorem symphonia_next_no_panic_witness :
    ∃ r, Symphonia.next { packets := [PacketPull.decoded [4]], offset := 0, buffer := [9] } =
        Except.ok r ∧
      ∀ v s2, r = some (v, s2) →
        s2.offset ≤ s2.buffer.length ∧ s2.packets.all PacketPull.wellFormed = true :=
  symphonia_next_no_panic { packets := [PacketPull.decoded [4]], offset := 0, buffer := [9] }
    (by decide) (by decide)

/-! ### Claim theorems: the `Tags` round-trip -/

/-- `splitComma` always yields at least one part. -/
theorem splitComma_ne_nil (s : List Char) : splitComma s ≠ [] := by
  induction s with
  | nil => simp [splitComma]
  | cons c rest ih =>
    by_cases hc : c = ','
    · simp [splitComma, hc]
    · simp only [splitComma, if_neg hc]
      cases h : splitComma rest <;> simp

/-- Unfolding `joinComma` one part at a time. -/
theorem joinComma_cons (t : List Char) (ts : List (List Char)) :
    joinComma (t :: ts) = t ++ if ts = [] then [] else ',' :: joinComma ts := by
  cases ts <;> simp [joinComma]

/-- Joining the parts of a split recovers the original string (the
string → list → string direction, before trimming). -/
theorem joinComma_splitComma (s : List Char) : joinComma (splitComma s) = s := by
  induction s with
  | nil => simp [splitComma, joinComma]
  | cons c rest ih =>
    by_cases hc : c = ','
    · subst hc
      have hsplit : splitComma (',' :: rest) = [] :: splitComma rest := by
        simp [splitComma]
      rw [hsplit, joinComma_cons, if_neg (splitComma_ne_nil rest)]
      simp [ih]
    · simp only [splitComma, if_neg hc]
      cases h : splitComma rest with
      | nil => exact absurd h (splitComma_ne_nil rest)
      | cons p ps =>
        have hjr : joinComma (p :: ps) = rest := by rw [← h, ih]
        rw [joinComma_cons, List.cons_append, ← hjr, joinComma_cons]

/-- A comma-free string splits into itself as the single part. -/
theorem splitComma_no_comma (t : List Char) (h : ',' ∉ t) : splitComma t = [t] := by
  induction t with
  | nil => rfl
  | cons c rest ih =>
    have hc : c ≠ ',' := fun hh => h (hh ▸ List.mem_cons_self c rest)
    have hr : ',' ∉ rest := fun hh => h (List.mem_cons_of_mem c hh)
    simp only [splitComma, if_neg hc, ih hr]

/-- Splitting a string that starts with a comma-free part followed by a
comma peels off that part. -/
theorem splitComma_append (t u : List Char) (h : ',' ∉ t) :
    splitComma (t ++ ',' :: u) = t :: splitComma u := by
  induction t with
  | nil => simp [splitComma]
  | cons c rest ih =>
    have hc : c ≠ ',' := fun hh => h (hh ▸ List.mem_cons_self c rest)
    have hr : ',' ∉ rest := fun hh => h (List.mem_cons_of_mem c hh)
    simp only [List.cons_append, splitComma, if_neg hc, List.append_eq]
    rw [ih hr]

/-- Splitting the comma-join of non-empty, comma-free parts recovers the
parts (the list → string → list direction, before trimming). -/
theorem splitComma_joinComma (ts : List (List Char)) (hne : ts ≠ [])
    (h : ∀ t ∈ ts, ',' ∉ t) : splitComma (joinComma ts) = ts := by
  induction ts with
  | nil => exact absurd rfl hne
  | cons t ts ih =>
    by_cases hts : ts = []
    · subst hts
      simp only [joinComma]
      exact splitComma_no_comma t (h t (List.mem_cons_self t []))
    · rw [joinComma_cons, if_neg hts,
        splitComma_append _ _ (h t (List.mem_cons_self t ts)),
        ih hts fun x hx => h x (List.mem_cons_of_mem t hx)]

/-- Mapping `trimChars` over parts that are already trimmed changes
nothing. -/
theorem map_trimChars_id (l : List (List Char)) (hl : ∀ p ∈ l, trimChars p = p) :
    l.map trimChars = l := by
  induction l with
  | nil => rfl
  | cons a l2 ih =>
    simp only [List.map_cons, hl a (List.mem_cons_self a l2),
      ih fun p hp => hl p (List.mem_cons_of_mem a hp)]

/-- C9 counterexample: the round-trip fails in both directions as stated —
the tag list `[" a"]` (entry with leading whitespace) does not survive
list → string → list, and the stored string `"a, b"` (space after the
comma) does not survive string → list → string, because `From<String>`
trims each part. -/
theorem tags_roundtrip_cex :
    tagsFromString (tagsToString [[' ', 'a']]) ≠ [[' ', 'a']] ∧
    tagsToString (tagsFromString ['a', ',', ' ', 'b']) ≠ ['a', ',', ' ', 'b'] :=
  ⟨by decide, by decide⟩

/-- C9 amended: the round-trip holds exactly on the already-normalized
forms: a non-empty tag list whose entries are comma-free and
whitespace-trimmed survives list → string → list, and a stored string whose
comma-separated parts are already trimmed survives string → list → string. -/
theorem tags_roundtrip_amended :
    (∀ ts : List (List Char), ts ≠ [] →
      (∀ t ∈ ts, ',' ∉ t ∧ trimChars t = t) →
      tagsFromString (tagsToString ts) = ts) ∧
    (∀ s : List Char, (∀ p ∈ splitComma s, trimChars p = p) →
      tagsToString (tagsFromString s) = s) := by
  constructor
  · intro ts hne h
    unfold tagsFromString tagsToString
    rw [splitComma_joinComma ts hne fun t ht => (h t ht).1]
    exact map_trimChars_id ts fun t ht => (h t ht).2
  · intro s h
    unfold tagsFromString tagsToString
    rw [map_trimChars_id _ h, joinComma_splitComma]

/-- Witness for `tags_roundtrip_amended`: the normalized tag list
`["a", "b"]` and the normalized stored string `"x,y"` both round-trip. -/
theorem tags_roundtrip_amended_witness :
    tagsFromString (tagsToString [['a'], ['b']]) = [['a'], ['b']] ∧
    tagsToString (tagsFromString ['x', ',', 'y']) = ['x', ',', 'y'] :=
  ⟨tags_roundtrip_amended.1 [['a'], ['b']] (by decide) (by decide),
    tags_roundtrip_amended.2 ['x', ',', 'y'] (by decide)⟩

end Tradio
